import Mathlib

set_option allowUnsafeReducibility true

/- Batteries marks the rational operations irreducible; restore default
reducibility so that concrete runs of the embedded program evaluate inside
`decide` and `rfl`. -/
attribute [semireducible] Rat.add Rat.mul Rat.inv Rat.sub Rat.div Rat.neg

/-!
Shallow embedding of `MOSFIRE_CSU_Odometer/odometer.py` (function `main`).

The per-line parsing (the two regular expressions and the `strptime` calls),
the per-file accumulator loop, the date reconstruction, the overlap check,
the directory-keyed result cache and the corpus aggregation are translated
directly from the source.  Python float values are modelled as exact
rationals, and the int/float distinction of a Python number is tracked
(`PyNum`) wherever the numpy dtype of an array depends on it.  Python
datetimes are a record of calendar fields compared lexicographically (year
defaults to 1900, as `datetime.strptime` does when the format has no year).
Python exceptions are modelled with an `Except` result: only
`UnicodeDecodeError` is caught by the source (modelled as a file whose
`contents` is `none`); every other exception aborts the whole run.  The
source needs Python 3.6 or later (it uses f-strings), so every numpy able
to import under it enforces the same_kind casting rule for in-place
ufuncs: the aggregation stage models the resulting `UFuncTypeError`
failures of lines 127 and 130.  Plotting (matplotlib) is out of scope and
not modelled.
-/

namespace CSU

/-! ## Characters and small string utilities -/

/-- Python regex `\s` on the character sets appearing in these logs. -/
def isSpaceChar (c : Char) : Bool :=
  c = ' ' || c = '\t' || c = '\n' || c = '\r' || c = '\x0b' || c = '\x0c'

/-- Python regex `\w` (ASCII range, which is all these syslog lines contain). -/
def isWordChar (c : Char) : Bool :=
  c.isAlpha || c.isDigit || c = '_'

/-- Numeric value of a digit string. -/
def digitsToNat (l : List Char) : Nat :=
  l.foldl (fun a c => a * 10 + (c.toNat - 48)) 0

/-- Python `line.strip(chr(10))`: remove leading and trailing newline characters. -/
def stripNL (l : List Char) : List Char :=
  ((l.dropWhile (fun c => c = '\n')).reverse.dropWhile (fun c => c = '\n')).reverse

/-- Python `str.split` with a comma separator: gives the comma-separated
fields of the characters of a line, keeping empty fields, as `str.split`
does. -/
def splitComma : List Char → List (List Char)
  | [] => [[]]
  | ',' :: t => [] :: splitComma t
  | c :: t =>
    match splitComma t with
    | s :: ss => (c :: s) :: ss
    | [] => [[c]]

/-- Split on a slash, to recover the last path component:
`os.path.split(os.path.split(log_file)[0])[1]` is the final component of the
directory of the log file. -/
def splitSlash : List Char → List (List Char)
  | [] => [[]]
  | '/' :: t => [] :: splitSlash t
  | c :: t =>
    match splitSlash t with
    | s :: ss => (c :: s) :: ss
    | [] => [[c]]

/-- Final component of a directory path, the `folder` variable of the source. -/
def basenameOf (dir : String) : List Char :=
  (splitSlash dir.data).getLastD []

/-! ## Dates

`datetime.strptime` with format `%b %d %H:%M:%S` produces a datetime whose
year is 1900 (the Python default).  Python datetimes compare
lexicographically on the calendar fields. -/

structure Date where
  year : Int
  month : Nat
  day : Nat
  hour : Nat
  minute : Nat
  second : Nat
deriving DecidableEq, Repr

/-- Lexicographic comparison of datetimes, as Python `datetime.__le__`. -/
def dateLE (a b : Date) : Bool :=
  if a.year ≠ b.year then decide (a.year < b.year)
  else if a.month ≠ b.month then decide (a.month < b.month)
  else if a.day ≠ b.day then decide (a.day < b.day)
  else if a.hour ≠ b.hour then decide (a.hour < b.hour)
  else if a.minute ≠ b.minute then decide (a.minute < b.minute)
  else decide (a.second ≤ b.second)

def isLeap (y : Int) : Bool :=
  y % 4 = 0 && (y % 100 ≠ 0 || y % 400 = 0)

/-- Days in a month, used by the datetime constructor validation. -/
def daysInMonth (y : Int) (m : Nat) : Nat :=
  if m = 2 then (if isLeap y then 29 else 28)
  else if m = 4 ∨ m = 6 ∨ m = 9 ∨ m = 11 then 30
  else 31

/-- Lines 100 and 101 rebuild a date by formatting the remembered month, day
and time into a format string carrying a chosen year and reparsing it with
`%Y %m %d %H:%M:%S`: the year is interpolated into the format string, so it
must render as exactly the four digits `%Y` consumes (1000..9999), and the
day must fit the month in the new year, otherwise `ValueError` is raised. -/
def withYear (y : Int) (d : Date) : Option Date :=
  if 1000 ≤ y ∧ y ≤ 9999 ∧ 1 ≤ d.day ∧ d.day ≤ daysInMonth y d.month then
    some { d with year := y }
  else none

/-! ## The record regex: `re.search(r"Record=<(\d\d),", line)` -/

/-- Does the bar pattern match at the head of the character list?  Returns the
two-digit bar number. -/
def barAt : List Char → Option Nat
  | 'R' :: 'e' :: 'c' :: 'o' :: 'r' :: 'd' :: '=' :: '<' :: a :: b :: ',' :: _ =>
    if a.isDigit && b.isDigit then some ((a.toNat - 48) * 10 + (b.toNat - 48)) else none
  | _ => none

/-- `re.search` of the bar pattern: leftmost occurrence anywhere in the line. -/
def searchBar : List Char → Option Nat
  | [] => none
  | c :: t =>
    match barAt (c :: t) with
    | some b => some b
    | none => searchBar t

/-! ## The timestamp regex: `re.match(r"(\w+)\s+(\d+)\s+(\d+:\d+:\d+).+", line)`

Each token class here is disjoint from the character class that must follow
it, so the greedy match without backtracking computes exactly what the
backtracking regex engine computes. -/

/-- Captured groups of the timestamp regex, as raw digit strings. -/
structure MDGroups where
  month : List Char
  day : List Char
  hh : List Char
  mm : List Char
  ss : List Char
deriving DecidableEq, Repr

/-- Take a nonempty maximal run of characters satisfying `p`. -/
def span1 (p : Char → Bool) (l : List Char) : Option (List Char × List Char) :=
  match l.takeWhile p with
  | [] => none
  | w => some (w, l.dropWhile p)

def expectColon : List Char → Option (List Char)
  | ':' :: t => some t
  | _ => none

/-- The anchored timestamp match.  The trailing `.+` requires at least one
further character that is not a newline. -/
def matchMD (l : List Char) : Option MDGroups := do
  let (w, r1) ← span1 isWordChar l
  let (_, r2) ← span1 isSpaceChar r1
  let (d, r3) ← span1 Char.isDigit r2
  let (_, r4) ← span1 isSpaceChar r3
  let (hh, r5) ← span1 Char.isDigit r4
  let r6 ← expectColon r5
  let (mm, r7) ← span1 Char.isDigit r6
  let r8 ← expectColon r7
  let (ss, r9) ← span1 Char.isDigit r8
  match r9 with
  | c :: _ => if c = '\n' then none else some ⟨w, d, hh, mm, ss⟩
  | [] => none

/-! ## `datetime.strptime` -/

/-- Month number of an abbreviated month name; `strptime` compares
case-insensitively. -/
def monthNum (w : List Char) : Option Nat :=
  let lw := w.map Char.toLower
  if lw = [ 'j', 'a', 'n' ] then some 1
  else if lw = [ 'f', 'e', 'b' ] then some 2
  else if lw = [ 'm', 'a', 'r' ] then some 3
  else if lw = [ 'a', 'p', 'r' ] then some 4
  else if lw = [ 'm', 'a', 'y' ] then some 5
  else if lw = [ 'j', 'u', 'n' ] then some 6
  else if lw = [ 'j', 'u', 'l' ] then some 7
  else if lw = [ 'a', 'u', 'g' ] then some 8
  else if lw = [ 's', 'e', 'p' ] then some 9
  else if lw = [ 'o', 'c', 't' ] then some 10
  else if lw = [ 'n', 'o', 'v' ] then some 11
  else if lw = [ 'd', 'e', 'c' ] then some 12
  else none

/-- A time-of-day field: `%H`, `%M` and `%S` accept one or two digits within
range; a longer digit run leaves unconverted data and raises `ValueError`. -/
def timeField (l : List Char) (bound : Nat) : Option Nat :=
  let v := digitsToNat l
  if l.length ≤ 2 ∧ v ≤ bound then some v else none

/-- `dt.strptime(date_string, "%b %d %H:%M:%S")` where `date_string` is
rebuilt from the regex groups with the day reformatted through `{:02d}`
(which normalises leading zeros).  The year defaults to 1900, so the day is
validated against the 1900 calendar.  Returns `none` for `ValueError`. -/
def strptimeBDHMS (g : MDGroups) : Option Date := do
  let m ← monthNum g.month
  let hh ← timeField g.hh 23
  let mm ← timeField g.mm 59
  -- the %S regex accepts 60 and 61, but the datetime constructor then
  -- rejects seconds above 59, so the effective bound is 59
  let ss ← timeField g.ss 59
  let dayv := digitsToNat g.day
  if 1 ≤ dayv ∧ dayv ≤ daysInMonth 1900 m then
    some { year := 1900, month := m, day := dayv, hour := hh, minute := mm, second := ss }
  else none

/-- `dt.strptime(folder, "%Y%m%d")`: `%Y` matches exactly four digits, `%m`
and `%d` one or two, with backtracking; the regex stage accepts the first
split that consumes the whole string with class-valid fields, then the
datetime constructor validates the calendar.  Only the year is consulted
downstream, so the year is returned.  Returns `none` for `ValueError`. -/
def parseYYYYMMDD (l : List Char) : Option Int :=
  if l.all Char.isDigit then
    let fit := ([4].flatMap fun a => [2, 1].flatMap fun b => [2, 1].map fun c => (a, b, c)).find?
      (fun t =>
        let m := digitsToNat ((l.drop t.1).take t.2.1)
        let d := digitsToNat (((l.drop t.1).drop t.2.1).take t.2.2)
        t.1 + t.2.1 + t.2.2 = l.length && 1 ≤ m && m ≤ 12 && 1 ≤ d && d ≤ 31)
    match fit with
    | none => none
    | some t =>
      let y := digitsToNat (l.take t.1)
      let m := digitsToNat ((l.drop t.1).take t.2.1)
      let d := digitsToNat (((l.drop t.1).drop t.2.1).take t.2.2)
      if 1 ≤ y ∧ 1 ≤ d ∧ d ≤ daysInMonth (y : Int) m then some (y : Int) else none
  else none

/-! ## `float()` -/

/-- Unsigned decimal mantissa: `d+`, `d+.d*` or `.d+`. -/
def parseMantissa (l : List Char) : Option (ℚ × List Char) :=
  let ip := l.takeWhile Char.isDigit
  let r := l.dropWhile Char.isDigit
  match r with
  | '.' :: fr =>
    let fp := fr.takeWhile Char.isDigit
    let r2 := fr.dropWhile Char.isDigit
    if ip.isEmpty && fp.isEmpty then none
    else some ((digitsToNat ip : ℚ) + (digitsToNat fp : ℚ) / (10 : ℚ) ^ fp.length, r2)
  | _ => if ip.isEmpty then none else some ((digitsToNat ip : ℚ), r)

def parseSignedExp (m : ℚ) (t : List Char) : Option ℚ :=
  let st :=
    match t with
    | '+' :: u => ((1 : Int), u)
    | '-' :: u => ((-1 : Int), u)
    | u => ((1 : Int), u)
  if st.2.isEmpty || !st.2.all Char.isDigit then none
  else some (m * (10 : ℚ) ^ (st.1 * (digitsToNat st.2 : Int)))

def parseFloatTail (m : ℚ) : List Char → Option ℚ
  | [] => some m
  | 'e' :: t => parseSignedExp m t
  | 'E' :: t => parseSignedExp m t
  | _ => none

/-- Python `float()` on the decimal and scientific forms; `inf` and `nan`,
which never occur as bar positions, are not modelled.  Surrounding
whitespace is ignored, as `float()` does.  Returns `none` for `ValueError`. -/
def parseFloat (l : List Char) : Option ℚ :=
  let l1 := ((l.dropWhile isSpaceChar).reverse.dropWhile isSpaceChar).reverse
  let sl : ℚ × List Char :=
    match l1 with
    | '+' :: t => (1, t)
    | '-' :: t => (-1, t)
    | t => (1, t)
  match parseMantissa sl.2 with
  | none => none
  | some (m, r) => (parseFloatTail m r).map (fun x => sl.1 * x)

/-! ## Errors and program state -/

/-- The Python exceptions that can escape the per-file `try` block
(`except UnicodeDecodeError` catches only decoding failures, which are
modelled as a file whose `contents` is `none`). -/
inductive PyExn
  | valueError
  | keyError
  | indexError
  | assertionError
  | nameError
  /-- The numpy casting error (a `TypeError` subclass) raised when an
  in-place ufunc result cannot be cast to the output dtype under the
  mandatory `same_kind` rule. -/
  | ufuncTypeError
deriving DecidableEq, Repr

/-- How a run can terminate early: `sys.exit(0)` on overlap, or an uncaught
exception. -/
inductive Abort
  | sysExit
  | exn (e : PyExn)
deriving DecidableEq, Repr

/-- Pointwise function update, used for the per-bar dictionaries and arrays. -/
def updFn {α : Type} (f : Nat → α) (k : Nat) (v : α) : Nat → α :=
  fun x => if x = k then v else f x

/-- A Python number as it lives in the per-file `mileage` list: the entries
start as the int 0 and become floats on the first `+= abs(delta)`; the
numpy dtype of `np.array` over such a list is float64 exactly when some
entry is a float. -/
inductive PyNum
  | pyInt (n : Int)
  | pyFloat (q : ℚ)
deriving DecidableEq, Repr

def PyNum.toRat : PyNum → ℚ
  | .pyInt n => (n : ℚ)
  | .pyFloat q => q

def PyNum.isFloat : PyNum → Bool
  | .pyInt _ => false
  | .pyFloat _ => true

/-- Integer value of an entry; the aggregation consults it only on lists
whose entries are all ints. -/
def PyNum.intVal : PyNum → Int
  | .pyInt n => n
  | .pyFloat _ => 0

/-- State of the per-file loop (lines 38 to 90 of the source).  The Python
lists `nmoves` and `mileage` are indexed by `bar-1`; they are modelled as
maps keyed by the bar number and materialised in bar order at the end.
`last_pos` is the dictionary with keys 1..92. -/
structure FileState where
  nmoves : Nat → Nat
  mileage : Nat → PyNum
  month_decimal : Nat
  year_iteration : Nat
  last_pos : Nat → Option ℚ
  file_start : Option Date
  file_end : Option Date

def initFileState : FileState where
  nmoves := fun _ => 0
  mileage := fun _ => .pyInt 0
  month_decimal := 0
  year_iteration := 0
  last_pos := fun b => if 1 ≤ b ∧ b ≤ 92 then some 0 else none
  file_start := none
  file_end := none

/-- Lines 63 to 80 of the source: the year-rollover bookkeeping, then either
setting `file_start` and running the overlap check (which may call
`sys.exit(0)`), or reassigning `file_end`. -/
def stepDates (filedates : List (String × Date × Date)) (date : Date) (st : FileState) :
    Except Abort FileState :=
  let st2 : FileState :=
    { st with
      year_iteration := st.year_iteration + (if date.month < st.month_decimal then 1 else 0),
      month_decimal := date.month }
  match st2.file_start with
  | none =>
    if filedates.any (fun e => dateLE e.2.1 date && dateLE date e.2.2) then
      .error .sysExit
    else .ok { st2 with file_start := some date }
  | some _ => .ok { st2 with file_end := some date }

/-- Lines 82 to 87 of the source: the `last_pos[bar]` lookup (a bar outside
the dictionary keys raises `KeyError`), the move count and mileage update,
and the unconditional `last_pos[bar] = barpos` assignment. -/
def stepPos (bar : Nat) (barpos : ℚ) (st3 : FileState) : Except Abort FileState :=
  match st3.last_pos bar with
  | none => .error (.exn .keyError)
  | some lp =>
    let st4 : FileState :=
      if lp ≠ 0 ∧ 0 < |lp - barpos| then
        { st3 with
          nmoves := updFn st3.nmoves bar (st3.nmoves bar + 1),
          mileage := updFn st3.mileage bar
            (.pyFloat ((st3.mileage bar).toRat + |lp - barpos|)) }
      else st3
    .ok { st4 with last_pos := updFn st4.last_pos bar (some barpos) }

/-- One iteration of `for line in contents` (lines 54 to 90).  A line whose
bar pattern does not match, or whose timestamp pattern does not match, is
skipped.  A matched line whose month name or field values are invalid raises
`ValueError` from `strptime`; a line with fewer than three comma fields
raises `IndexError`; an unparsable position field raises `ValueError`.  The
source order is preserved: dates and overlap first, then the position field,
then the per-bar update. -/
def step (filedates : List (String × Date × Date)) (st : FileState) (line : String) :
    Except Abort FileState :=
  match searchBar line.data with
  | none => .ok st
  | some bar =>
    match matchMD line.data with
    | none => .ok st
    | some md =>
      match strptimeBDHMS md with
      | none => .error (.exn .valueError)
      | some date =>
        match stepDates filedates date st with
        | .error a => .error a
        | .ok st3 =>
          match (splitComma (stripNL line.data))[2]? with
          | none => .error (.exn .indexError)
          | some f2 =>
            match parseFloat f2 with
            | none => .error (.exn .valueError)
            | some barpos => stepPos bar barpos st3

/-- The whole per-file line loop. -/
def foldLines (fd : List (String × Date × Date)) : FileState → List String → Except Abort FileState
  | st, [] => .ok st
  | st, l :: t =>
    match step fd st l with
    | .error a => .error a
    | .ok st2 => foldLines fd st2 t

/-- Materialised `nmoves` list (index `bar-1` holds the count for `bar`). -/
def materialNmoves (st : FileState) : List Nat :=
  (List.range 92).map fun j => st.nmoves (j + 1)

/-- Materialised `mileage` list (index `bar-1` holds the mileage for `bar`). -/
def materialMileage (st : FileState) : List PyNum :=
  (List.range 92).map fun j => st.mileage (j + 1)

/-- The `odometer.json` cache artifact: `{"odometer": mileage, "nmoves": nmoves}`. -/
structure Artifact where
  odometer : List PyNum
  nmoves : List Nat
deriving DecidableEq, Repr

/-- A log file as the run sees it: its path, its directory, and its decoded
lines (`none` when the bytes cannot be decoded, in which case `readlines`
raises `UnicodeDecodeError`). -/
structure LogFile where
  path : String
  dir : String
  contents : Option (List String)
deriving DecidableEq, Repr

/-- First-match association lookup, the behaviour of the Python dictionaries
here when updated entries are prepended. -/
def alookup {α : Type} : List (String × α) → String → Option α
  | [], _ => none
  | (k2, v) :: t, k => if k = k2 then some v else alookup t k

/-- Mutable state of `main` that survives across files: the `filedates`
dictionary, the `odometers` and `moves` dictionaries, the per-directory
cache files on disk, and the Python locals `folderdt` and `last_file`,
which keep their previous binding across loop iterations. -/
structure RunState where
  filedates : List (String × Date × Date)
  odometers : List (String × List PyNum)
  moves : List (String × List Nat)
  cache : List (String × Artifact)
  folderdt : Option Int
  lastFile : Option String
deriving DecidableEq, Repr

def runInit (cache0 : List (String × Artifact)) : RunState where
  filedates := []
  odometers := []
  moves := []
  cache := cache0
  folderdt := none
  lastFile := none

/-- One iteration of `for i, log_file in enumerate(log_files)` (lines 29 to
119).  On a cache hit the artifact is loaded and parsing is skipped
entirely.  Otherwise the file is parsed; a decoding failure skips the file;
after the loop the two assertions run, the folder name is parsed (the
fallback `year = dt.utcnow().year` is assigned but never read, so a failed
parse leaves `folderdt` at its previous binding, unbound on the first
file), the absolute dates are rebuilt via a strftime/strptime round trip,
and the gap print reads `filedates[last_file]` when `i > 0`. -/
def processFile (i : Nat) (rs : RunState) (f : LogFile) : Except Abort RunState :=
  match alookup rs.cache f.dir with
  | some result =>
    .ok { rs with
          odometers := (f.path, result.odometer) :: rs.odometers,
          moves := (f.path, result.nmoves) :: rs.moves }
  | none =>
    match f.contents with
    | none => .ok rs
    | some contents =>
      match foldLines rs.filedates initFileState contents with
      | .error a => .error a
      | .ok st =>
        match st.file_start with
        | none => .error (.exn .assertionError)
        | some fs =>
          match st.file_end with
          | none => .error (.exn .assertionError)
          | some fe =>
            let folderdt : Option Int :=
              match parseYYYYMMDD (basenameOf f.dir) with
              | some y => some y
              | none => rs.folderdt
            match folderdt with
            | none => .error (.exn .nameError)
            | some fy =>
              match withYear fy fe with
              | none => .error (.exn .valueError)
              | some fileEnd =>
                match withYear (fy - (st.year_iteration : Int)) fs with
                | none => .error (.exn .valueError)
                | some fileStart =>
                  let fd2 := rs.filedates ++ [(f.path, fileStart, fileEnd)]
                  let gapCheck : Except Abort Unit :=
                    if 0 < i then
                      match rs.lastFile with
                      | none => .error (.exn .nameError)
                      | some lf =>
                        match alookup fd2 lf with
                        | none => .error (.exn .keyError)
                        | some _ => .ok ()
                    else .ok ()
                  match gapCheck with
                  | .error a => .error a
                  | .ok _ =>
                    let mil := materialMileage st
                    let nmv := materialNmoves st
                    .ok { rs with
                          filedates := fd2,
                          lastFile := some f.path,
                          folderdt := some fy,
                          odometers := (f.path, mil) :: rs.odometers,
                          moves := (f.path, nmv) :: rs.moves,
                          cache := (f.dir, { odometer := mil, nmoves := nmv }) :: rs.cache }

/-- The file loop with its enumeration index. -/
def runFilesFrom : RunState → Nat → List LogFile → Except Abort RunState
  | rs, _, [] => .ok rs
  | rs, i, f :: t =>
    match processFile i rs f with
    | .error a => .error a
    | .ok rs2 => runFilesFrom rs2 (i + 1) t

def runFiles (rs : RunState) (files : List LogFile) : Except Abort RunState :=
  runFilesFrom rs 0 files

/-- Element-wise array addition, `numpy` `+=` on the length-92 arrays. -/
def zipAdd {α : Type} [Add α] (a b : List α) : List α :=
  List.zipWith (· + ·) a b

def zeros92N : List Nat := List.replicate 92 0

def zeros92I : List Int := List.replicate 92 0

/-- The summation loop (lines 122 to 127).  Both accumulators start as
int64 numpy arrays of zeros.  Every entry of `log_files` is looked up in
`moves` and `odometers`; a file that was skipped has no entry and the
lookup raises `KeyError` (the `moves` lookup of line 126 runs first).
`nmoves += ...` adds int64 arrays and always succeeds.
`np.array(odometers[log_file])` has dtype float64 exactly when some entry
is a Python float, and casting a float64 array in place into the int64
`mileage` accumulator violates the mandatory `same_kind` rule, so numpy
raises an uncaught `UFuncTypeError` at the first such file. -/
def aggregateArrays : List LogFile → (List Nat × List Int) → RunState →
    Except Abort (List Nat × List Int)
  | [], acc, _ => .ok acc
  | f :: t, acc, rs =>
    match alookup rs.moves f.path with
    | none => .error (.exn .keyError)
    | some mv =>
      match alookup rs.odometers f.path with
      | none => .error (.exn .keyError)
      | some od =>
        if od.any PyNum.isFloat then .error (.exn .ufuncTypeError)
        else aggregateArrays t (zipAdd acc.1 mv, zipAdd acc.2 (od.map PyNum.intVal)) rs

/-- The whole run on a given file list and initial cache: the file loop,
the summation loop, then line 130, `mileage /= 1000`.  The division is an
in-place true division of the int64 `mileage` accumulator: its float64
result cannot be cast back under `same_kind`, so numpy raises an uncaught
`UFuncTypeError` and the program never forms the report (the nominal
result type below is therefore never produced). -/
def mainRun (files : List LogFile) (cache0 : List (String × Artifact)) :
    Except Abort (List Nat × List ℚ) :=
  match runFiles (runInit cache0) files with
  | .error a => .error a
  | .ok rs =>
    match aggregateArrays files (zeros92N, zeros92I) rs with
    | .error a => .error a
    | .ok _ => .error (.exn .ufuncTypeError)

/-! ## Specification-side views of a line and a file

These are pure per-line projections used to state the claims: which lines
are accepted, and what date, bar and position they carry. -/

/-- The date a line carries, when the bar pattern, the timestamp pattern and
the timestamp parse all succeed. -/
def lineDate (line : String) : Option Date :=
  match searchBar line.data with
  | none => none
  | some _ =>
    match matchMD line.data with
    | none => none
    | some md => strptimeBDHMS md

/-- The bar and position a line carries, when additionally the third comma
field parses as a float. -/
def lineAccept (line : String) : Option (Nat × ℚ) :=
  match searchBar line.data with
  | none => none
  | some bar =>
    match matchMD line.data with
    | none => none
    | some md =>
      match strptimeBDHMS md with
      | none => none
      | some _ =>
        match (splitComma (stripNL line.data))[2]? with
        | none => none
        | some f2 => (parseFloat f2).map fun p => (bar, p)

/-- Dates of the accepted records of a file, in file order. -/
def acceptedDates (lines : List String) : List Date :=
  lines.filterMap lineDate

/-- Number of accepted records of a file. -/
def countA (lines : List String) : Nat :=
  (acceptedDates lines).length

/-- Months of the accepted records of a file, in file order. -/
def acceptedMonths (lines : List String) : List Nat :=
  (acceptedDates lines).map Date.month

/-- Positions of the accepted records for one bar, in file order. -/
def acceptedPos (b : Nat) (lines : List String) : List ℚ :=
  lines.filterMap fun l =>
    match lineAccept l with
    | some (b2, p) => if b2 = b then some p else none
    | none => none

/-- Count of consecutive position pairs that differ by a nonzero amount,
counted only when the earlier position is nonzero. -/
def movesSpec : List ℚ → Nat
  | a :: b :: t => (if a ≠ 0 ∧ 0 < |a - b| then 1 else 0) + movesSpec (b :: t)
  | _ => 0

/-- Sum of the absolute position differences over those same pairs. -/
def mileSpec : List ℚ → ℚ
  | a :: b :: t => (if a ≠ 0 ∧ 0 < |a - b| then |a - b| else 0) + mileSpec (b :: t)
  | _ => 0

/-- How a per-bar `mileage` entry evolves over the accepted positions of a
bar: it keeps its original Python number exactly when no move is counted,
and otherwise becomes a Python float carrying the accumulated sum. -/
def addMile (old : PyNum) (ps : List ℚ) : PyNum :=
  if movesSpec ps = 0 then old else .pyFloat (old.toRat + mileSpec ps)

/-- The final `mileage` entry of a bar started from the Python int 0: the
int 0 when the bar never moved, otherwise a float holding the mileage sum. -/
def mileNum (ps : List ℚ) : PyNum :=
  if movesSpec ps = 0 then .pyInt 0 else .pyFloat (mileSpec ps)

/-- Number of adjacent descents in a month sequence: positions where the
month is numerically less than the previously seen month. -/
def descents : List Nat → Nat
  | a :: b :: t => (if b < a then 1 else 0) + descents (b :: t)
  | _ => 0

/-- First-some choice on options, used to state how `file_start` and
`file_end` evolve. -/
def orE {α : Type} (a b : Option α) : Option α :=
  match a with
  | some x => some x
  | none => b

/-! ## Extraction helpers for witnesses and counterexamples -/

def exOk {ε α : Type} : Except ε α → Bool
  | .ok _ => true
  | .error _ => false

def runStOf (e : Except Abort RunState) : RunState :=
  match e with
  | .ok rs => rs
  | .error _ => runInit []

def stOf (e : Except Abort FileState) : FileState :=
  match e with
  | .ok st => st
  | .error _ => initFileState

def date0 : Date :=
  { year := 0, month := 0, day := 0, hour := 0, minute := 0, second := 0 }

/-! ## Concrete log files used by the examples, witnesses and counterexamples -/

/-- Bar 05 at positions 10.0, 10.0, 7.5, 7.5 (the worked example of the spec). -/
def exC1lines : List String :=
  [ "Aug 15 10:00:01 m c: Record=<05,0,10.0,OK>\n",
    "Aug 15 10:00:02 m c: Record=<05,0,10.0,OK>\n",
    "Aug 15 10:00:03 m c: Record=<05,0,7.5,OK>\n",
    "Aug 15 10:00:04 m c: Record=<05,0,7.5,OK>\n" ]

def exC1file : LogFile :=
  { path := "/h/instrlogs/mosfire/20130101/CSU.log",
    dir := "/h/instrlogs/mosfire/20130101",
    contents := some exC1lines }

/-- Raw month sequence 11, 12, 12, 1, 2: one forward year rollover. -/
def exC3lines : List String :=
  [ "Nov 15 01:00:00 m c: Record=<05,0,1.0,K>\n",
    "Dec 10 01:00:00 m c: Record=<05,0,2.0,K>\n",
    "Dec 20 01:00:00 m c: Record=<05,0,3.0,K>\n",
    "Jan 05 01:00:00 m c: Record=<05,0,4.0,K>\n",
    "Feb 11 01:00:00 m c: Record=<05,0,5.0,K>\n" ]

def exC3file : LogFile :=
  { path := "/h/instrlogs/mosfire/20130101/CSU.log",
    dir := "/h/instrlogs/mosfire/20130101",
    contents := some exC3lines }

/-- Two files whose reconstructed spans overlap: 2012-01-10..2012-01-20 and
2012-01-12..2012-01-25. -/
def exC2fileA : LogFile :=
  { path := "/h/instrlogs/mosfire/20120101/CSU.log",
    dir := "/h/instrlogs/mosfire/20120101",
    contents := some
      [ "Jan 10 00:00:00 m c: Record=<05,0,1.0,K>\n",
        "Jan 20 00:00:00 m c: Record=<05,0,2.0,K>\n" ] }

def exC2fileB : LogFile :=
  { path := "/h/instrlogs/mosfire/20120102/CSU.log",
    dir := "/h/instrlogs/mosfire/20120102",
    contents := some
      [ "Jan 12 00:00:00 m c: Record=<05,0,3.0,K>\n",
        "Jan 25 00:00:00 m c: Record=<05,0,4.0,K>\n" ] }

/-- A matched record line whose third comma field is not a parseable float. -/
def exBadFloatLine : String := "Aug 15 10:00:05 m c: Record=<05,0,xyz,K>\n"

def exC6badFloatFile : LogFile :=
  { path := "/h/instrlogs/mosfire/20120105/CSU.log",
    dir := "/h/instrlogs/mosfire/20120105",
    contents := some
      [ "Aug 15 10:00:01 m c: Record=<05,0,1.0,K>\n", exBadFloatLine ] }

/-- A file whose bytes cannot be decoded. -/
def exC6undecodable : LogFile :=
  { path := "/h/instrlogs/mosfire/20120106/CSU.log",
    dir := "/h/instrlogs/mosfire/20120106",
    contents := none }

/-- A decodable file none of whose bars ever moves: two accepted records
for bar 5 at the same position, so every `mileage` entry stays the Python
int 0 and the stored odometer array keeps dtype int64. -/
def exMovelessLines : List String :=
  [ "Aug 15 10:00:01 m c: Record=<05,0,10.0,OK>\n",
    "Aug 15 10:00:02 m c: Record=<05,0,10.0,OK>\n" ]

def exMovelessFile : LogFile :=
  { path := "/h/instrlogs/mosfire/20120107/CSU.log",
    dir := "/h/instrlogs/mosfire/20120107",
    contents := some exMovelessLines }

/-- The hardcoded operational log: its directory name does not parse as
YYYYMMDD. -/
def exC7file : LogFile :=
  { path := "/sdata1300/syslogs/CSU.log",
    dir := "/sdata1300/syslogs",
    contents := some
      [ "Jan 10 00:00:00 m c: Record=<05,0,1.0,K>\n",
        "Jan 20 00:00:00 m c: Record=<05,0,2.0,K>\n" ] }

/-- A line whose two-digit bar pattern is out of domain but whose timestamp
pattern does not match (no leading syslog timestamp). -/
def exC8skipLine : String := "Record=<93,1.0,2.0\n"

def exC8skipFile : LogFile :=
  { path := "/h/instrlogs/mosfire/20130101/CSU.log",
    dir := "/h/instrlogs/mosfire/20130101",
    contents := some
      [ "Aug 15 10:00:01 m c: Record=<05,0,10.0,OK>\n",
        exC8skipLine,
        "Aug 15 10:00:03 m c: Record=<05,0,7.5,OK>\n" ] }

/-- A fully matched record line with bar 93, outside the dictionary keys. -/
def exC8fullLine : String := "Aug 15 10:00:00 m c: Record=<93,0,5.0,K>\n"

def exC8fullFile : LogFile :=
  { path := "/h/instrlogs/mosfire/20130101/CSU.log",
    dir := "/h/instrlogs/mosfire/20130101",
    contents := some [exC8fullLine] }

/-- Two log files in the same directory with different contents. -/
def exC9file1 : LogFile :=
  { path := "/h/instrlogs/mosfire/20120101/CSU.log",
    dir := "/h/instrlogs/mosfire/20120101",
    contents := some
      [ "Jan 10 00:00:00 m c: Record=<05,0,1.0,K>\n",
        "Jan 20 00:00:00 m c: Record=<05,0,2.0,K>\n" ] }

def exC9file2 : LogFile :=
  { path := "/h/instrlogs/mosfire/20120101/CSU.log.1",
    dir := "/h/instrlogs/mosfire/20120101",
    contents := some
      [ "Jan 12 00:00:00 m c: Record=<05,0,3.0,K>\n",
        "Jan 25 00:00:00 m c: Record=<05,0,4.0,K>\n",
        "Jan 26 00:00:00 m c: Record=<05,0,6.0,K>\n" ] }

/-- A file with exactly one accepted record (plus an unparsable line). -/
def exC10file : LogFile :=
  { path := "/h/instrlogs/mosfire/20130101/CSU.log",
    dir := "/h/instrlogs/mosfire/20130101",
    contents := some
      [ "Aug 15 10:00:01 m c: Record=<05,0,10.0,OK>\n", "noise\n" ] }

/-! ## Basic lemmas about the embedding -/

theorem updFn_same {α : Type} (f : Nat → α) (k : Nat) (v : α) : updFn f k v k = v := by
  simp [updFn]

theorem updFn_ne {α : Type} (f : Nat → α) (k x : Nat) (v : α) (h : x ≠ k) :
    updFn f k v x = f x := by
  simp [updFn, h]

theorem orE_some {α : Type} (a : α) (b : Option α) : orE (some a) b = some a := rfl

theorem orE_none {α : Type} (b : Option α) : orE none b = b := rfl

theorem orE_orE_some {α : Type} (a : Option α) (x : α) (y : Option α) :
    orE (orE a (some x)) y = orE a (some x) := by
  cases a <;> simp [orE]

theorem orE_getLast?_some {α : Type} (l : List α) (a : α) :
    orE l.getLast? (some a) = (a :: l).getLast? := by
  cases l with
  | nil => simp [orE]
  | cons x xs =>
    rw [List.getLast?_cons_cons]
    cases hg : (x :: xs).getLast? with
    | none => simp [List.getLast?_cons] at hg
    | some y => simp [orE]

/-- Any date produced by the truncated-timestamp parse carries the
`strptime` default year 1900. -/
theorem strptimeBDHMS_year {g : MDGroups} {d : Date} (h : strptimeBDHMS g = some d) :
    d.year = 1900 := by
  simp only [strptimeBDHMS, bind, Option.bind_eq_some] at h
  obtain ⟨m, hm, hh, hhh, mm, hmm, ss, hss, h⟩ := h
  split at h
  · cases h
    rfl
  · cases h

/-- Lexicographic datetime comparison fails when the left year is larger. -/
theorem dateLE_eq_false {a b : Date} (h : b.year < a.year) : dateLE a b = false := by
  have hne : a.year ≠ b.year := by omega
  have hlt : ¬(a.year < b.year) := by omega
  simp [dateLE, hne, hlt]

/-- Field-level reading of a successful `stepDates`. -/
theorem stepDates_ok {fd : List (String × Date × Date)} {date : Date} {st st3 : FileState}
    (h : stepDates fd date st = .ok st3) :
    st3.nmoves = st.nmoves ∧ st3.mileage = st.mileage ∧ st3.last_pos = st.last_pos
    ∧ st3.month_decimal = date.month
    ∧ st3.year_iteration
        = st.year_iteration + (if date.month < st.month_decimal then 1 else 0)
    ∧ st3.file_start = orE st.file_start (some date)
    ∧ st3.file_end = (if st.file_start.isSome then some date else st.file_end) := by
  unfold stepDates at h
  cases hfs : st.file_start with
  | none =>
    simp only [hfs] at h
    split at h
    · cases h
    · cases h
      simp [orE, hfs]
  | some d0 =>
    simp only [hfs] at h
    cases h
    simp [orE, hfs]

/-- A bar outside the `last_pos` keys raises `KeyError`. -/
theorem stepPos_keyError {bar : Nat} {barpos : ℚ} {st3 : FileState}
    (hlp : st3.last_pos bar = none) :
    stepPos bar barpos st3 = .error (.exn .keyError) := by
  unfold stepPos
  rw [hlp]

/-- Field-level reading of a successful `stepPos`. -/
theorem stepPos_ok {bar : Nat} {barpos lp : ℚ} {st3 stm : FileState}
    (hlp : st3.last_pos bar = some lp)
    (h : stepPos bar barpos st3 = .ok stm) :
    (∀ x, stm.nmoves x
        = if x = bar
          then st3.nmoves bar + (if lp ≠ 0 ∧ 0 < |lp - barpos| then 1 else 0)
          else st3.nmoves x)
    ∧ (∀ x, stm.mileage x
        = if x = bar
          then (if lp ≠ 0 ∧ 0 < |lp - barpos|
                then PyNum.pyFloat ((st3.mileage bar).toRat + |lp - barpos|)
                else st3.mileage bar)
          else st3.mileage x)
    ∧ (∀ x, stm.last_pos x = if x = bar then some barpos else st3.last_pos x)
    ∧ stm.month_decimal = st3.month_decimal
    ∧ stm.year_iteration = st3.year_iteration
    ∧ stm.file_start = st3.file_start
    ∧ stm.file_end = st3.file_end := by
  unfold stepPos at h
  split at h
  next heq =>
    rw [hlp] at heq
    cases heq
  next lp2 heq =>
    rw [hlp] at heq
    cases heq
    by_cases hc : lp ≠ 0 ∧ 0 < |lp - barpos|
    · rw [if_pos hc] at h
      cases h
      refine ⟨?_, ?_, ?_, rfl, rfl, rfl, rfl⟩ <;> intro x <;> by_cases hx : x = bar <;>
        simp [updFn, hx, hc]
    · rw [if_neg hc] at h
      cases h
      have hc2 : lp = 0 ∨ lp - barpos = 0 := by
        by_cases h0 : lp = 0
        · exact Or.inl h0
        · exact Or.inr (abs_eq_zero.mp
            (le_antisymm (not_lt.mp fun hlt => hc ⟨h0, hlt⟩) (abs_nonneg _)))
      refine ⟨?_, ?_, ?_, rfl, rfl, rfl, rfl⟩ <;> intro x <;> by_cases hx : x = bar <;>
        rcases hc2 with h0 | h0 <;> simp [updFn, hx, h0]

theorem acceptedDates_cons_none {line : String} {t : List String}
    (h : lineDate line = none) : acceptedDates (line :: t) = acceptedDates t := by
  simp [acceptedDates, List.filterMap_cons, h]

theorem acceptedDates_cons_some {line : String} {t : List String} {d : Date}
    (h : lineDate line = some d) : acceptedDates (line :: t) = d :: acceptedDates t := by
  simp [acceptedDates, List.filterMap_cons, h]

theorem acceptedMonths_cons_none {line : String} {t : List String}
    (h : lineDate line = none) : acceptedMonths (line :: t) = acceptedMonths t := by
  simp [acceptedMonths, acceptedDates_cons_none h]

theorem acceptedMonths_cons_some {line : String} {t : List String} {d : Date}
    (h : lineDate line = some d) :
    acceptedMonths (line :: t) = d.month :: acceptedMonths t := by
  simp [acceptedMonths, acceptedDates_cons_some h]

theorem acceptedPos_cons_none {b : Nat} {line : String} {t : List String}
    (h : lineAccept line = none) : acceptedPos b (line :: t) = acceptedPos b t := by
  simp [acceptedPos, List.filterMap_cons, h]

theorem acceptedPos_cons_other {b bar : Nat} {p : ℚ} {line : String} {t : List String}
    (h : lineAccept line = some (bar, p)) (hne : bar ≠ b) :
    acceptedPos b (line :: t) = acceptedPos b t := by
  simp [acceptedPos, List.filterMap_cons, h, hne]

theorem acceptedPos_cons_same {b : Nat} {p : ℚ} {line : String} {t : List String}
    (h : lineAccept line = some (b, p)) :
    acceptedPos b (line :: t) = p :: acceptedPos b t := by
  simp [acceptedPos, List.filterMap_cons, h]

theorem orE_some_isSome {α : Type} (a : Option α) (x : α) :
    (orE a (some x)).isSome = true := by
  cases a <;> simp [orE]

theorem mileSpec_eq_zero : ∀ (ps : List ℚ), movesSpec ps = 0 → mileSpec ps = 0 := by
  intro ps
  induction ps with
  | nil => intro h; rfl
  | cons a t ih =>
    cases t with
    | nil => intro h; rfl
    | cons b t2 =>
      intro h
      simp only [movesSpec] at h
      by_cases hg : a ≠ 0 ∧ 0 < |a - b|
      · rw [if_pos hg] at h
        omega
      · rw [if_neg hg, Nat.zero_add] at h
        simp only [mileSpec, if_neg hg, ih h, add_zero, zero_add]

theorem addMile_step (old : PyNum) (l pos : ℚ) (ps : List ℚ) :
    addMile (if l ≠ 0 ∧ 0 < |l - pos| then PyNum.pyFloat (old.toRat + |l - pos|) else old)
        (pos :: ps)
      = addMile old (l :: pos :: ps) := by
  by_cases hg : l ≠ 0 ∧ 0 < |l - pos|
  · by_cases hz : movesSpec (pos :: ps) = 0
    · have hm := mileSpec_eq_zero _ hz
      simp [addMile, movesSpec, mileSpec, hg, hz, hm]
    · simp [addMile, movesSpec, mileSpec, hg, hz, PyNum.toRat, add_assoc]
  · have hc2 : l = 0 ∨ l - pos = 0 := by
      by_cases h0 : l = 0
      · exact Or.inl h0
      · exact Or.inr (abs_eq_zero.mp
          (le_antisymm (not_lt.mp fun hlt => hg ⟨h0, hlt⟩) (abs_nonneg _)))
    rcases hc2 with h0 | h0 <;> simp [addMile, movesSpec, mileSpec, h0]

theorem addMile_pyInt0 (ps : List ℚ) : addMile (.pyInt 0) ps = mileNum ps := by
  by_cases hz : movesSpec ps = 0 <;> simp [addMile, mileNum, PyNum.toRat, hz]

theorem mileNum_toRat (ps : List ℚ) : (mileNum ps).toRat = mileSpec ps := by
  by_cases hz : movesSpec ps = 0
  · simp [mileNum, hz, PyNum.toRat, mileSpec_eq_zero ps hz]
  · simp [mileNum, hz, PyNum.toRat]

/-- Master invariant of the per-file loop: a successful fold over the lines
computes, at every bar `b`, the pairwise move count and mileage of the
accepted positions of that bar, and tracks the rollover count of the
accepted month sequence and the first and last accepted dates. -/
theorem foldLines_ok_spec (fd : List (String × Date × Date)) (b : Nat) :
    ∀ (lines : List String) (st st2 : FileState) (l : ℚ),
      st.last_pos b = some l →
      foldLines fd st lines = .ok st2 →
      st2.nmoves b = st.nmoves b + movesSpec (l :: acceptedPos b lines)
      ∧ st2.mileage b = addMile (st.mileage b) (l :: acceptedPos b lines)
      ∧ st2.last_pos b = some ((acceptedPos b lines).getLastD l)
      ∧ st2.year_iteration
          = st.year_iteration + descents (st.month_decimal :: acceptedMonths lines)
      ∧ st2.month_decimal = (acceptedMonths lines).getLastD st.month_decimal
      ∧ st2.file_start = orE st.file_start (acceptedDates lines).head?
      ∧ st2.file_end
          = orE ((if st.file_start.isSome then acceptedDates lines
                  else (acceptedDates lines).tail).getLast?) st.file_end := by
  intro lines
  induction lines with
  | nil =>
    intro st st2 l hlp hfold
    simp only [foldLines] at hfold
    cases hfold
    cases hfs : st.file_start <;>
      simp [acceptedPos, acceptedMonths, acceptedDates, movesSpec, mileSpec, addMile,
        descents, orE, hlp]
  | cons line t ih =>
    intro st st2 l hlp hfold
    cases hstep : step fd st line with
    | error a =>
      simp only [foldLines, hstep] at hfold
      cases hfold
    | ok stm =>
      simp only [foldLines, hstep] at hfold
      cases hsb : searchBar line.data with
      | none =>
        have hstm : st = stm := by
          simp only [step, hsb] at hstep
          exact Except.ok.inj hstep
        subst hstm
        have hld : lineDate line = none := by simp [lineDate, hsb]
        have hla : lineAccept line = none := by simp [lineAccept, hsb]
        rw [acceptedPos_cons_none hla, acceptedMonths_cons_none hld,
          acceptedDates_cons_none hld]
        exact ih st st2 l hlp hfold
      | some bar =>
        cases hmd : matchMD line.data with
        | none =>
          have hstm : st = stm := by
            simp only [step, hsb, hmd] at hstep
            exact Except.ok.inj hstep
          subst hstm
          have hld : lineDate line = none := by simp [lineDate, hsb, hmd]
          have hla : lineAccept line = none := by simp [lineAccept, hsb, hmd]
          rw [acceptedPos_cons_none hla, acceptedMonths_cons_none hld,
            acceptedDates_cons_none hld]
          exact ih st st2 l hlp hfold
        | some md =>
          cases hdt : strptimeBDHMS md with
          | none =>
            simp only [step, hsb, hmd, hdt] at hstep
            cases hstep
          | some date =>
            simp only [step, hsb, hmd, hdt] at hstep
            cases hsd : stepDates fd date st with
            | error a =>
              simp only [hsd] at hstep
              cases hstep
            | ok st3 =>
              simp only [hsd] at hstep
              cases hf2 : (splitComma (stripNL line.data))[2]? with
              | none =>
                simp only [hf2] at hstep
                cases hstep
              | some f2 =>
                simp only [hf2] at hstep
                cases hpf : parseFloat f2 with
                | none =>
                  simp only [hpf] at hstep
                  cases hstep
                | some pos =>
                  simp only [hpf] at hstep
                  obtain ⟨hDn, hDm, hDl, hDmd, hDyi, hDfs, hDfe⟩ := stepDates_ok hsd
                  have hld : lineDate line = some date := by simp [lineDate, hsb, hmd, hdt]
                  have hla : lineAccept line = some (bar, pos) := by
                    simp [lineAccept, hsb, hmd, hdt, hf2, hpf]
                  rw [acceptedMonths_cons_some hld, acceptedDates_cons_some hld]
                  cases hlpb : st3.last_pos bar with
                  | none =>
                    rw [stepPos_keyError hlpb] at hstep
                    cases hstep
                  | some lp =>
                    obtain ⟨hPn, hPm, hPl, hPmd, hPyi, hPfs, hPfe⟩ := stepPos_ok hlpb hstep
                    by_cases hbb : bar = b
                    · subst hbb
                      have hll : lp = l := by
                        rw [hDl, hlp] at hlpb
                        exact (Option.some.inj hlpb).symm
                      subst hll
                      have hstml : stm.last_pos bar = some pos := by simp [hPl bar]
                      obtain ⟨hIn, hIm, hIl, hIyi, hImd, hIfs, hIfe⟩ :=
                        ih stm st2 pos hstml hfold
                      rw [acceptedPos_cons_same hla]
                      refine ⟨?_, ?_, ?_, ?_, ?_, ?_, ?_⟩
                      · rw [hIn, hPn bar, if_pos rfl, hDn]
                        simp only [movesSpec]
                        rw [Nat.add_assoc]
                      · rw [hIm, hPm bar, if_pos rfl, hDm]
                        exact addMile_step _ _ _ _
                      · rw [hIl, List.getLastD_cons]
                      · rw [hIyi, hPyi, hDyi, hPmd, hDmd]
                        simp only [descents]
                        rw [Nat.add_assoc]
                      · rw [hImd, hPmd, hDmd, List.getLastD_cons]
                      · rw [hIfs, hPfs, hDfs, List.head?_cons, orE_orE_some]
                      · rw [hIfe, hPfs, hDfs, hPfe, hDfe]
                        cases hfs : st.file_start with
                        | none =>
                          simp [orE, orE_getLast?_some, List.getLast?_cons, List.tail_cons]
                        | some d0 =>
                          simp [orE, orE_getLast?_some, List.getLast?_cons, List.tail_cons]
                          cases (acceptedDates t).getLast? <;> simp [orE]
                    · have hstml : stm.last_pos b = some l := by
                        rw [hPl b, if_neg (Ne.symm hbb), hDl]
                        exact hlp
                      obtain ⟨hIn, hIm, hIl, hIyi, hImd, hIfs, hIfe⟩ :=
                        ih stm st2 l hstml hfold
                      rw [acceptedPos_cons_other hla hbb]
                      refine ⟨?_, ?_, ?_, ?_, ?_, ?_, ?_⟩
                      · rw [hIn, hPn b, if_neg (Ne.symm hbb), hDn]
                      · rw [hIm, hPm b, if_neg (Ne.symm hbb), hDm]
                      · rw [hIl]
                      · rw [hIyi, hPyi, hDyi, hPmd, hDmd]
                        simp only [descents]
                        rw [Nat.add_assoc]
                      · rw [hImd, hPmd, hDmd, List.getLastD_cons]
                      · rw [hIfs, hPfs, hDfs, List.head?_cons, orE_orE_some]
                      · rw [hIfe, hPfs, hDfs, hPfe, hDfe]
                        cases hfs : st.file_start with
                        | none =>
                          simp [orE, orE_getLast?_some, List.getLast?_cons, List.tail_cons]
                        | some d0 =>
                          simp [orE, orE_getLast?_some, List.getLast?_cons, List.tail_cons]
                          cases (acceptedDates t).getLast? <;> simp [orE]

theorem materialNmoves_getElem {st : FileState} {b : Nat} (h1 : 1 ≤ b) (h2 : b ≤ 92) :
    (materialNmoves st)[b - 1]? = some (st.nmoves b) := by
  unfold materialNmoves
  rw [List.getElem?_map, List.getElem?_range (by omega)]
  have hb : b - 1 + 1 = b := by omega
  simp [hb]

theorem materialMileage_getElem {st : FileState} {b : Nat} (h1 : 1 ≤ b) (h2 : b ≤ 92) :
    (materialMileage st)[b - 1]? = some (st.mileage b) := by
  unfold materialMileage
  rw [List.getElem?_map, List.getElem?_range (by omega)]
  have hb : b - 1 + 1 = b := by omega
  simp [hb]

/-- On a cache hit the artifact is loaded as the PerFileResult of the file;
the contents of the file are never consulted. -/
theorem processFile_cacheHit {i : Nat} {rs : RunState} {f : LogFile} {art : Artifact}
    (hc : alookup rs.cache f.dir = some art) :
    processFile i rs f
      = .ok { rs with odometers := (f.path, art.odometer) :: rs.odometers,
                      moves := (f.path, art.nmoves) :: rs.moves } := by
  unfold processFile
  rw [hc]

/-- Full characterisation of a successful fresh (cache-miss) processing of a
decodable file. -/
theorem processFile_fresh_ok {i : Nat} {rs : RunState} {f : LogFile} {lines : List String}
    {rs2 : RunState}
    (hc : alookup rs.cache f.dir = none)
    (hco : f.contents = some lines)
    (h : processFile i rs f = .ok rs2) :
    ∃ st fs fe fy fileStart fileEnd,
      foldLines rs.filedates initFileState lines = .ok st
      ∧ st.file_start = some fs
      ∧ st.file_end = some fe
      ∧ (match parseYYYYMMDD (basenameOf f.dir) with
          | some y => some y
          | none => rs.folderdt) = some fy
      ∧ withYear fy fe = some fileEnd
      ∧ withYear (fy - (st.year_iteration : Int)) fs = some fileStart
      ∧ rs2 = { rs with
                filedates := rs.filedates ++ [(f.path, fileStart, fileEnd)],
                lastFile := some f.path,
                folderdt := some fy,
                odometers := (f.path, materialMileage st) :: rs.odometers,
                moves := (f.path, materialNmoves st) :: rs.moves,
                cache := (f.dir, { odometer := materialMileage st,
                                   nmoves := materialNmoves st }) :: rs.cache } := by
  simp only [processFile, hc, hco] at h
  cases hfold : foldLines rs.filedates initFileState lines with
  | error a =>
    simp only [hfold] at h
    cases h
  | ok st =>
    simp only [hfold] at h
    cases hfs : st.file_start with
    | none =>
      simp only [hfs] at h
      cases h
    | some fs =>
      simp only [hfs] at h
      cases hfe : st.file_end with
      | none =>
        simp only [hfe] at h
        cases h
      | some fe =>
        simp only [hfe] at h
        cases hfy : (match parseYYYYMMDD (basenameOf f.dir) with
            | some y => some y
            | none => rs.folderdt) with
        | none =>
          simp only [hfy] at h
          cases h
        | some fy =>
          simp only [hfy] at h
          cases hw1 : withYear fy fe with
          | none =>
            simp only [hw1] at h
            cases h
          | some fileEnd =>
            simp only [hw1] at h
            cases hw2 : withYear (fy - (st.year_iteration : Int)) fs with
            | none =>
              simp only [hw2] at h
              cases h
            | some fileStart =>
              simp only [hw2] at h
              cases hgc : (if 0 < i then
                  match rs.lastFile with
                  | none => Except.error (Abort.exn PyExn.nameError)
                  | some lf =>
                    match alookup (rs.filedates ++ [(f.path, fileStart, fileEnd)]) lf with
                    | none => Except.error (Abort.exn PyExn.keyError)
                    | some _ => Except.ok ()
                else Except.ok ()) with
              | error a =>
                simp only [hgc] at h
                cases h
              | ok u =>
                simp only [hgc] at h
                exact ⟨st, fs, fe, fy, fileStart, fileEnd, rfl, hfs, hfe, rfl, hw1, hw2,
                  (Except.ok.inj h).symm⟩

theorem initFileState_last_pos {b : Nat} (h1 : 1 ≤ b) (h2 : b ≤ 92) :
    initFileState.last_pos b = some 0 := by
  simp [initFileState, h1, h2]

/-! ## Claim theorems -/

/-- C1: per-file accumulator correctness.  For every bar `b` in 1..92 and
every log file processed with a cold cache, the stored `nmoves` entry at
index `b-1` is the count of consecutive accepted-position pairs for that bar
that differ by a nonzero amount, counted only when the earlier position
(`last_pos[bar]`, initially the sentinel 0) is nonzero, and the stored
`mileage` entry (the Python int 0 when the bar never moved, a Python float
otherwise) has as numeric value the sum of the absolute differences over
those same pairs; in particular a file whose accepted records for bar 5
have positions 10.0, 10.0, 7.5, 7.5 yields `nmoves[4] = 1` and
`mileage[4] = 2.5` (the float 5/2). -/
theorem C1_per_file_accumulator :
    (∀ (i : Nat) (rs : RunState) (f : LogFile) (lines : List String) (rs2 : RunState)
        (b : Nat),
        1 ≤ b → b ≤ 92 →
        alookup rs.cache f.dir = none →
        f.contents = some lines →
        processFile i rs f = .ok rs2 →
        ((alookup rs2.moves f.path).getD [])[b - 1]?
            = some (movesSpec (0 :: acceptedPos b lines))
        ∧ ((alookup rs2.odometers f.path).getD [])[b - 1]?
            = some (mileNum (0 :: acceptedPos b lines))
        ∧ (mileNum (0 :: acceptedPos b lines)).toRat
            = mileSpec (0 :: acceptedPos b lines))
    ∧ ((alookup (runStOf (processFile 0 (runInit []) exC1file)).moves
          exC1file.path).getD [])[4]? = some 1
    ∧ ((alookup (runStOf (processFile 0 (runInit []) exC1file)).odometers
          exC1file.path).getD [])[4]? = some (.pyFloat (5 / 2)) := by
  refine ⟨?_, by decide, by decide⟩
  intro i rs f lines rs2 b h1 h2 hc hco h
  obtain ⟨st, fs, fe, fy, fileStart, fileEnd, hfold, hfs, hfe, hfy, hw1, hw2, hrs2⟩ :=
    processFile_fresh_ok hc hco h
  obtain ⟨hn, hm, -, -, -, -, -⟩ :=
    foldLines_ok_spec rs.filedates b lines initFileState st 0
      (initFileState_last_pos h1 h2) hfold
  subst hrs2
  refine ⟨?_, ?_, mileNum_toRat _⟩
  · simp only [alookup, if_pos rfl, if_true, Option.getD_some]
    rw [materialNmoves_getElem h1 h2, hn]
    simp [initFileState]
  · simp only [alookup, if_pos rfl, if_true, Option.getD_some]
    rw [materialMileage_getElem h1 h2, hm]
    simp [initFileState, addMile_pyInt0]

/-- Witness for C1 at the worked example file and bar 5. -/
theorem C1_witness :
    ((alookup (runStOf (processFile 0 (runInit []) exC1file)).moves
        exC1file.path).getD [])[5 - 1]? = some (movesSpec (0 :: acceptedPos 5 exC1lines))
    ∧ ((alookup (runStOf (processFile 0 (runInit []) exC1file)).odometers
        exC1file.path).getD [])[5 - 1]? = some (mileNum (0 :: acceptedPos 5 exC1lines))
    ∧ (mileNum (0 :: acceptedPos 5 exC1lines)).toRat
        = mileSpec (0 :: acceptedPos 5 exC1lines) :=
  C1_per_file_accumulator.1 0 (runInit []) exC1file exC1lines
    (runStOf (processFile 0 (runInit []) exC1file)) 5 (by decide) (by decide) rfl rfl rfl

theorem descents_zero_cons (ms : List Nat) : descents (0 :: ms) = descents ms := by
  cases ms with
  | nil => rfl
  | cons b t => simp [descents]

theorem withYear_year {y : Int} {d d2 : Date} (h : withYear y d = some d2) : d2.year = y := by
  unfold withYear at h
  split at h
  · cases h
    rfl
  · cases h

theorem alookup_append {α : Type} {l1 l2 : List (String × α)} {k : String}
    (h : alookup l1 k = none) : alookup (l1 ++ l2) k = alookup l2 k := by
  induction l1 with
  | nil => rfl
  | cons p t ih =>
    by_cases hk : k = p.1
    · simp [alookup, hk] at h
    · simp only [List.cons_append, alookup, if_neg hk] at h ⊢
      exact ih h

/-- C3: date reconstruction.  The rollover counter of a successfully folded
file equals the number of adjacent descents of the accepted month sequence
(it is incremented exactly on a month decrease and never decremented); the
recorded absolute end date carries the anchor year parsed from the
directory name and the recorded start date carries the anchor year minus
the rollover count; in particular the raw month sequence 11, 12, 12, 1, 2
gives rollover count 1 and a start date one year before the anchor. -/
theorem C3_date_reconstruction :
    (∀ (fd : List (String × Date × Date)) (lines : List String) (st2 : FileState),
        foldLines fd initFileState lines = .ok st2 →
        st2.year_iteration = descents (acceptedMonths lines))
    ∧ (∀ (i : Nat) (rs : RunState) (f : LogFile) (lines : List String) (rs2 : RunState)
          (fy : Int) (s e : Date),
        alookup rs.cache f.dir = none →
        f.contents = some lines →
        parseYYYYMMDD (basenameOf f.dir) = some fy →
        alookup rs.filedates f.path = none →
        processFile i rs f = .ok rs2 →
        alookup rs2.filedates f.path = some (s, e) →
        e.year = fy ∧ s.year = fy - (descents (acceptedMonths lines) : Int))
    ∧ (descents (acceptedMonths exC3lines) = 1
        ∧ ((alookup (runStOf (processFile 0 (runInit []) exC3file)).filedates
              exC3file.path).getD (date0, date0)).2.year = 2013
        ∧ ((alookup (runStOf (processFile 0 (runInit []) exC3file)).filedates
              exC3file.path).getD (date0, date0)).1.year = 2012) := by
  have hfold_yi : ∀ (fd : List (String × Date × Date)) (lines : List String)
      (st2 : FileState), foldLines fd initFileState lines = .ok st2 →
      st2.year_iteration = descents (acceptedMonths lines) := by
    intro fd lines st2 hfold
    obtain ⟨-, -, -, hyi, -, -, -⟩ :=
      foldLines_ok_spec fd 1 lines initFileState st2 0
        (initFileState_last_pos (by decide) (by decide)) hfold
    rw [hyi]
    have : initFileState.month_decimal = 0 := rfl
    rw [this, descents_zero_cons]
    simp [initFileState]
  refine ⟨hfold_yi, ?_, by decide, by decide, by decide⟩
  intro i rs f lines rs2 fy s e hc hco hpy hfd h hlook
  obtain ⟨st, fs, fe, fy2, fileStart, fileEnd, hfold, hfs, hfe, hfy, hw1, hw2, hrs2⟩ :=
    processFile_fresh_ok hc hco h
  subst hrs2
  rw [hpy] at hfy
  have hfy2 : fy2 = fy := by
    simp only [Option.some.injEq] at hfy
    exact hfy.symm
  subst hfy2
  have hlook2 : alookup (rs.filedates ++ [(f.path, fileStart, fileEnd)]) f.path
      = some (fileStart, fileEnd) := by
    rw [alookup_append hfd]
    simp [alookup]
  rw [hlook2] at hlook
  have hse : fileStart = s ∧ fileEnd = e := by
    have := Option.some.inj hlook
    exact ⟨congrArg Prod.fst this, congrArg Prod.snd this⟩
  obtain ⟨hs, he⟩ := hse
  subst hs
  subst he
  refine ⟨withYear_year hw1, ?_⟩
  rw [withYear_year hw2, hfold_yi _ _ _ hfold]

/-- Witness for C3 at the rollover example file. -/
theorem C3_witness :
    (stOf (foldLines [] initFileState exC3lines)).year_iteration
        = descents (acceptedMonths exC3lines)
    ∧ (((alookup (runStOf (processFile 0 (runInit []) exC3file)).filedates
          exC3file.path).getD (date0, date0)).2.year = 2013
        ∧ ((alookup (runStOf (processFile 0 (runInit []) exC3file)).filedates
          exC3file.path).getD (date0, date0)).1.year
          = 2013 - (descents (acceptedMonths exC3lines) : Int)) :=
  ⟨C3_date_reconstruction.1 [] exC3lines (stOf (foldLines [] initFileState exC3lines)) rfl,
    C3_date_reconstruction.2.1 0 (runInit []) exC3file exC3lines
      (runStOf (processFile 0 (runInit []) exC3file)) 2013
      (((alookup (runStOf (processFile 0 (runInit []) exC3file)).filedates
          exC3file.path).getD (date0, date0)).1)
      (((alookup (runStOf (processFile 0 (runInit []) exC3file)).filedates
          exC3file.path).getD (date0, date0)).2)
      rfl rfl rfl rfl rfl rfl⟩

/-- C10: a file with exactly one accepted record sets `file_start` but never
`file_end`, so `assert file_end is not None` fails and the run aborts with
an `AssertionError`; the actual precondition of the accumulator is at least
two accepted records, which is exactly when both assertions pass. -/
theorem C10_single_record_assertion :
    (∀ (i : Nat) (rs : RunState) (f : LogFile) (lines : List String) (st2 : FileState),
        alookup rs.cache f.dir = none →
        f.contents = some lines →
        foldLines rs.filedates initFileState lines = .ok st2 →
        countA lines = 1 →
        processFile i rs f = .error (.exn .assertionError))
    ∧ (∀ (fd : List (String × Date × Date)) (lines : List String) (st2 : FileState),
        foldLines fd initFileState lines = .ok st2 →
        2 ≤ countA lines →
        st2.file_start.isSome = true ∧ st2.file_end.isSome = true)
    ∧ processFile 0 (runInit []) exC10file = .error (.exn .assertionError) := by
  refine ⟨?_, ?_, by rfl⟩
  · intro i rs f lines st2 hc hco hfold hcount
    obtain ⟨-, -, -, -, -, hfs, hfe⟩ :=
      foldLines_ok_spec rs.filedates 1 lines initFileState st2 0
        (initFileState_last_pos (by decide) (by decide)) hfold
    have hcount2 : (acceptedDates lines).length = 1 := hcount
    obtain ⟨d, hd⟩ := List.length_eq_one.mp hcount2
    have hfs2 : st2.file_start = some d := by
      rw [hfs, hd]
      rfl
    have hfe2 : st2.file_end = none := by
      rw [hfe, hd]
      rfl
    simp only [processFile, hc, hco, hfold, hfs2, hfe2]
  · intro fd lines st2 hfold hcount
    obtain ⟨-, -, -, -, -, hfs, hfe⟩ :=
      foldLines_ok_spec fd 1 lines initFileState st2 0
        (initFileState_last_pos (by decide) (by decide)) hfold
    cases had : acceptedDates lines with
    | nil => simp [countA, had] at hcount
    | cons d1 tl =>
      cases tl with
      | nil => simp [countA, had] at hcount
      | cons d2 rest =>
        constructor
        · rw [hfs, had]
          rfl
        · rw [hfe, had]
          simp [orE, List.getLast?_cons, initFileState]

/-- Witness for C10 at a file with exactly one accepted record. -/
theorem C10_witness :
    processFile 0 (runInit []) exC10file = .error (.exn .assertionError) :=
  C10_single_record_assertion.1 0 (runInit []) exC10file (exC10file.contents.getD [])
    (stOf (foldLines (runInit []).filedates initFileState (exC10file.contents.getD [])))
    rfl rfl rfl (by decide)

/-- C4: cache round trip.  A file computed fresh (cold cache) writes an
artifact such that any later processing that sees that artifact in the
cache loads the identical `PerFileResult`: the same `nmoves` and `mileage`
entries, without reparsing. -/
theorem C4_cache_roundtrip :
    ∀ (i j : Nat) (rs rsB : RunState) (f : LogFile) (lines : List String) (rs2 : RunState)
      (mv : List Nat) (od : List PyNum),
      alookup rs.cache f.dir = none →
      f.contents = some lines →
      processFile i rs f = .ok rs2 →
      alookup rs2.moves f.path = some mv →
      alookup rs2.odometers f.path = some od →
      alookup rsB.cache f.dir = alookup rs2.cache f.dir →
      exOk (processFile j rsB f) = true
      ∧ alookup (runStOf (processFile j rsB f)).moves f.path = some mv
      ∧ alookup (runStOf (processFile j rsB f)).odometers f.path = some od := by
  intro i j rs rsB f lines rs2 mv od hc hco h hmv hod hcache
  obtain ⟨st, fs, fe, fy, fileStart, fileEnd, hfold, hfs, hfe, hfy, hw1, hw2, hrs2⟩ :=
    processFile_fresh_ok hc hco h
  subst hrs2
  simp only [alookup, if_pos rfl, if_true, Option.getD_some, Option.some.injEq] at hmv hod
  have hart : alookup rsB.cache f.dir
      = some { odometer := materialMileage st, nmoves := materialNmoves st } := by
    rw [hcache]
    simp [alookup]
  rw [processFile_cacheHit hart]
  refine ⟨rfl, ?_, ?_⟩ <;> simp [runStOf, alookup, hmv, hod]

/-- Witness for C4: the worked example file processed cold and then warm. -/
theorem C4_witness :
    exOk (processFile 1 (runInit (runStOf (processFile 0 (runInit []) exC1file)).cache)
        exC1file) = true
    ∧ alookup (runStOf (processFile 1
          (runInit (runStOf (processFile 0 (runInit []) exC1file)).cache) exC1file)).moves
        exC1file.path
      = some ((alookup (runStOf (processFile 0 (runInit []) exC1file)).moves
          exC1file.path).getD [])
    ∧ alookup (runStOf (processFile 1
          (runInit (runStOf (processFile 0 (runInit []) exC1file)).cache) exC1file)).odometers
        exC1file.path
      = some ((alookup (runStOf (processFile 0 (runInit []) exC1file)).odometers
          exC1file.path).getD []) :=
  C4_cache_roundtrip 0 1 (runInit [])
    (runInit (runStOf (processFile 0 (runInit []) exC1file)).cache) exC1file exC1lines
    (runStOf (processFile 0 (runInit []) exC1file))
    ((alookup (runStOf (processFile 0 (runInit []) exC1file)).moves exC1file.path).getD [])
    ((alookup (runStOf (processFile 0 (runInit []) exC1file)).odometers exC1file.path).getD [])
    rfl rfl rfl rfl rfl rfl

/-- C9: the cache is keyed by directory only.  A file whose directory
already has an artifact loads that artifact as its own result, regardless
of its contents; concretely, of two log files in the same directory the
second is never parsed and inherits the arrays of the first (alone it
would report two moves for bar 5, but it records the first file's single
move).  No inherited arrays are ever counted in an Aggregate, though: the
inherited mileage entry is a Python float, so the summation loop raises
`UFuncTypeError` on the very first file and the run aborts. -/
theorem C9_cache_keyed_by_directory :
    (∀ (i : Nat) (rs : RunState) (f : LogFile) (art : Artifact),
        alookup rs.cache f.dir = some art →
        processFile i rs f
          = .ok { rs with odometers := (f.path, art.odometer) :: rs.odometers,
                          moves := (f.path, art.nmoves) :: rs.moves })
    ∧ (alookup (runStOf (runFiles (runInit []) [exC9file1, exC9file2])).moves exC9file2.path
        = alookup (runStOf (runFiles (runInit []) [exC9file1, exC9file2])).moves
            exC9file1.path)
    ∧ ((alookup (runStOf (runFiles (runInit []) [exC9file1, exC9file2])).moves
          exC9file2.path).getD [])[4]? = some 1
    ∧ ((alookup (runStOf (processFile 0 (runInit []) exC9file2)).moves
          exC9file2.path).getD [])[4]? = some 2
    ∧ mainRun [exC9file1, exC9file2] [] = .error (.exn .ufuncTypeError) := by
  refine ⟨?_, by decide, by decide, by decide, by rfl⟩
  intro i rs f art hc
  exact processFile_cacheHit hc

/-- C9 counterexample: two same-directory files are fully processed by the
file loop, yet the claimed per-directory double counting in the Aggregate
never happens — the summation loop aborts with `UFuncTypeError` before any
Aggregate exists. -/
theorem C9_counterexample :
    exC9file1.dir = exC9file2.dir
    ∧ exOk (runFiles (runInit []) [exC9file1, exC9file2]) = true
    ∧ mainRun [exC9file1, exC9file2] [] = .error (.exn .ufuncTypeError) := by
  refine ⟨rfl, by decide, by rfl⟩

/-- Witness for C9: the second same-directory file loads the artifact of
the first. -/
theorem C9_witness :
    processFile 1 (runStOf (processFile 0 (runInit []) exC9file1)) exC9file2
      = .ok { runStOf (processFile 0 (runInit []) exC9file1) with
              odometers := (exC9file2.path,
                  ((alookup (runStOf (processFile 0 (runInit []) exC9file1)).cache
                      exC9file2.dir).getD { odometer := [], nmoves := [] }).odometer)
                :: (runStOf (processFile 0 (runInit []) exC9file1)).odometers,
              moves := (exC9file2.path,
                  ((alookup (runStOf (processFile 0 (runInit []) exC9file1)).cache
                      exC9file2.dir).getD { odometer := [], nmoves := [] }).nmoves)
                :: (runStOf (processFile 0 (runInit []) exC9file1)).moves } :=
  C9_cache_keyed_by_directory.1 1 (runStOf (processFile 0 (runInit []) exC9file1))
    exC9file2
    ((alookup (runStOf (processFile 0 (runInit []) exC9file1)).cache
        exC9file2.dir).getD { odometer := [], nmoves := [] })
    rfl

/-- C5: the aggregation stage can never produce the claimed Aggregate.
The accumulators of lines 123 and 124 are int64 numpy arrays.  A file with
at least one counted move stores Python-float mileage entries, so its
`np.array` has dtype float64 and `mileage +=` at line 127 raises
`UFuncTypeError` under the mandatory same_kind casting rule; and even a
corpus whose per-file arrays are all ints reaches line 130, where
`mileage /= 1000` true-divides the int64 array in place and raises
`UFuncTypeError` as well.  `mainRun` therefore never returns: no
element-wise sum, no order-independence and no divided-by-1000 report is
ever observable.  Concretely, the worked-example corpus aborts at line 127
(its stored odometer array indeed carries a float entry), and the empty
corpus aborts at line 130. -/
theorem C5_aggregation_casting_bug :
    (∀ (files : List LogFile) (cache0 : List (String × Artifact)),
        exOk (mainRun files cache0) = false)
    ∧ mainRun [exC1file] [] = .error (.exn .ufuncTypeError)
    ∧ mainRun [] [] = .error (.exn .ufuncTypeError)
    ∧ ((alookup (runStOf (runFiles (runInit []) [exC1file])).odometers
          exC1file.path).getD []).any PyNum.isFloat = true := by
  refine ⟨?_, by rfl, by rfl, by decide⟩
  intro files cache0
  cases hrf : runFiles (runInit cache0) files with
  | error a => simp [mainRun, hrf, exOk]
  | ok rs =>
    cases hagg : aggregateArrays files (zeros92N, zeros92I) rs with
    | error a => simp [mainRun, hrf, hagg, exOk]
    | ok p => simp [mainRun, hrf, hagg, exOk]

theorem stepDates_not_error {fd : List (String × Date × Date)} {date : Date}
    {st : FileState} {a : Abort}
    (hfd : ∀ e ∈ fd, (1900 : Int) < e.2.1.year)
    (hy : date.year = 1900)
    (h : stepDates fd date st = .error a) : False := by
  unfold stepDates at h
  cases hfs : st.file_start with
  | none =>
    simp only [hfs] at h
    split at h
    · next hov =>
      obtain ⟨e, he, hcond⟩ := List.any_eq_true.mp hov
      have h1 : dateLE e.2.1 date = true := (Bool.and_eq_true _ _ ▸ hcond).1
      have h2 : dateLE e.2.1 date = false := dateLE_eq_false (by rw [hy]; exact hfd e he)
      rw [h1] at h2
      cases h2
    · cases h
  | some d0 =>
    simp only [hfs] at h
    cases h

/-- The overlap check compares the freshly parsed start, whose year is the
`strptime` default 1900, against the recorded reconstructed spans; when all
recorded spans begin after the year 1900 the per-file loop can therefore
never terminate the run through `sys.exit`. -/
theorem foldLines_no_sysExit {fd : List (String × Date × Date)}
    (hfd : ∀ e ∈ fd, (1900 : Int) < e.2.1.year) :
    ∀ (lines : List String) (st : FileState) (a : Abort),
      foldLines fd st lines = .error a → a ≠ .sysExit := by
  intro lines
  induction lines with
  | nil =>
    intro st a h
    simp only [foldLines] at h
    cases h
  | cons line t ih =>
    intro st a h
    simp only [foldLines] at h
    cases hstep : step fd st line with
    | ok stm =>
      simp only [hstep] at h
      exact ih stm a h
    | error e =>
      simp only [hstep] at h
      have hae : e = a := Except.error.inj h
      subst hae
      intro hcontra
      subst hcontra
      cases hsb : searchBar line.data with
      | none =>
        simp only [step, hsb] at hstep
        cases hstep
      | some bar =>
        cases hmd : matchMD line.data with
        | none =>
          simp only [step, hsb, hmd] at hstep
          cases hstep
        | some md =>
          cases hdt : strptimeBDHMS md with
          | none =>
            simp only [step, hsb, hmd, hdt] at hstep
            cases Except.error.inj hstep
          | some date =>
            simp only [step, hsb, hmd, hdt] at hstep
            cases hsd : stepDates fd date st with
            | error a2 =>
              exact stepDates_not_error hfd (strptimeBDHMS_year hdt) hsd
            | ok st3 =>
              simp only [hsd] at hstep
              cases hf2 : (splitComma (stripNL line.data))[2]? with
              | none =>
                simp only [hf2] at hstep
                cases Except.error.inj hstep
              | some f2 =>
                simp only [hf2] at hstep
                cases hpf : parseFloat f2 with
                | none =>
                  simp only [hpf] at hstep
                  cases Except.error.inj hstep
                | some pos =>
                  simp only [hpf, stepPos] at hstep
                  cases hlpb : st3.last_pos bar with
                  | none =>
                    simp only [hlpb] at hstep
                    cases Except.error.inj hstep
                  | some lp =>
                    simp only [hlpb] at hstep
                    split at hstep <;> cases hstep

/-- C2 counterexample: two files whose reconstructed absolute spans overlap
(the start of the second falls inclusively inside the recorded span of the
first) do not terminate the run through the overlap exit: the whole file
loop completes, and the run's eventual abort is the unrelated
`UFuncTypeError` of the summation stage, not `sys.exit` — and no Aggregate
is ever produced, from overlapping and disjoint corpora alike. -/
theorem C2_counterexample :
    (dateLE
        ((alookup (runStOf (runFiles (runInit []) [exC2fileA, exC2fileB])).filedates
            exC2fileA.path).getD (date0, date0)).1
        ((alookup (runStOf (runFiles (runInit []) [exC2fileA, exC2fileB])).filedates
            exC2fileB.path).getD (date0, date0)).1
      && dateLE
        ((alookup (runStOf (runFiles (runInit []) [exC2fileA, exC2fileB])).filedates
            exC2fileB.path).getD (date0, date0)).1
        ((alookup (runStOf (runFiles (runInit []) [exC2fileA, exC2fileB])).filedates
            exC2fileA.path).getD (date0, date0)).2) = true
    ∧ exOk (runFiles (runInit []) [exC2fileA, exC2fileB]) = true
    ∧ mainRun [exC2fileA, exC2fileB] [] = .error (.exn .ufuncTypeError) := by
  refine ⟨by decide, by decide, by rfl⟩

/-- C2 amended: the overlap check compares the pre-reconstruction start of
the new file, whose year is the `strptime` default 1900, against the
reconstructed spans of earlier files; whenever every recorded span begins
after the year 1900 the run never terminates through the overlap exit; at
the concrete overlapping corpus both files are fully processed and record
their per-file arrays (one bar-5 move each), but no file contributes to
any Aggregate because the summation stage aborts with `UFuncTypeError`. -/
theorem C2_overlap_amended :
    (∀ (fd : List (String × Date × Date)) (lines : List String) (st : FileState)
        (a : Abort),
        (∀ e ∈ fd, (1900 : Int) < e.2.1.year) →
        foldLines fd st lines = .error a →
        a ≠ .sysExit)
    ∧ ((alookup (runStOf (runFiles (runInit []) [exC2fileA, exC2fileB])).moves
          exC2fileA.path).getD [])[4]? = some 1
    ∧ ((alookup (runStOf (runFiles (runInit []) [exC2fileA, exC2fileB])).moves
          exC2fileB.path).getD [])[4]? = some 1
    ∧ mainRun [exC2fileA, exC2fileB] [] = .error (.exn .ufuncTypeError) := by
  refine ⟨?_, by decide, by decide, by rfl⟩
  intro fd lines st a hfd h
  exact foldLines_no_sysExit hfd lines st a h

/-- Witness for the amended C2: a per-file loop that fails, with a
post-1900 span recorded, fails with an exception and not with the overlap
exit. -/
theorem C2_amended_witness :
    Abort.exn PyExn.valueError ≠ Abort.sysExit :=
  C2_overlap_amended.1
    [(exC2fileA.path, { date0 with year := 2012 }, { date0 with year := 2012 })]
    [exBadFloatLine] initFileState (.exn .valueError) (by decide) rfl

/-- C6 counterexample: a log file containing a matched record line whose
third comma field is not a parseable float makes the whole run abort with
an uncaught `ValueError` — the file is not skipped and no Aggregate is
produced. -/
theorem C6_counterexample :
    (lineDate exBadFloatLine).isSome = true
    ∧ ((splitComma (stripNL exBadFloatLine.data))[2]?).isSome = true
    ∧ parseFloat (((splitComma (stripNL exBadFloatLine.data))[2]?).getD []) = none
    ∧ mainRun [exC2fileA, exC6badFloatFile] [] = .error (.exn .valueError) := by
  refine ⟨by decide, by decide, by decide, by rfl⟩

/-- C6 amended: a file whose bytes cannot be decoded is skipped with no
cache artifact and no result entries, and the aggregation loop then
aborts, so no Aggregate is produced from the remaining files either.  The
loop fails at the first file with a counted move, whose float mileage
entries raise `UFuncTypeError` at `mileage +=` — before the skipped file
is even reached; only when every earlier file is moveless does the
iteration reach the skipped file and abort with the `KeyError` of its
missing `moves` entry.  Separately, a malformed float field raises an
uncaught `ValueError` instead of being treated as a decode failure. -/
theorem C6_decode_amended :
    (∀ (i : Nat) (rs : RunState) (f : LogFile),
        f.contents = none →
        alookup rs.cache f.dir = none →
        processFile i rs f = .ok rs)
    ∧ alookup (runStOf (runFiles (runInit []) [exC2fileA, exC6undecodable])).cache
        exC6undecodable.dir = none
    ∧ alookup (runStOf (runFiles (runInit []) [exC2fileA, exC6undecodable])).moves
        exC6undecodable.path = none
    ∧ mainRun [exC2fileA, exC6undecodable] [] = .error (.exn .ufuncTypeError)
    ∧ mainRun [exMovelessFile, exC6undecodable] [] = .error (.exn .keyError) := by
  refine ⟨?_, by decide, by decide, by rfl, by rfl⟩
  intro i rs f hco hc
  simp only [processFile, hc, hco]

/-- Witness for the amended C6: the undecodable file is skipped and leaves
the run state unchanged. -/
theorem C6_witness :
    processFile 1 (runStOf (processFile 0 (runInit []) exC2fileA)) exC6undecodable
      = .ok (runStOf (processFile 0 (runInit []) exC2fileA)) :=
  C6_decode_amended.1 1 (runStOf (processFile 0 (runInit []) exC2fileA))
    exC6undecodable rfl rfl

/-- C7: the anchor-year fallback is broken.  For the hardcoded operational
log, whose directory name does not parse as YYYYMMDD, the fallback year is
computed into a variable that is never read; the code instead reads
`folderdt`, which is unbound on the first file — the run aborts with a
`NameError` instead of using the current UTC year — and on a later file it
silently reuses the year parsed from a previous directory (here 2012). -/
theorem C7_anchor_year_fallback :
    parseYYYYMMDD (basenameOf exC7file.dir) = none
    ∧ processFile 0 (runInit []) exC7file = .error (.exn .nameError)
    ∧ exOk (processFile 0 { runInit [] with folderdt := some 2012 } exC7file) = true
    ∧ ((alookup (runStOf (processFile 0
          { runInit [] with folderdt := some 2012 } exC7file)).filedates
        exC7file.path).getD (date0, date0)).2.year = 2012 := by
  refine ⟨by decide, by rfl, by decide, by decide⟩

/-- C8 counterexample: a line carrying the two-digit bar pattern with the
out-of-domain value 93 but no leading timestamp is simply discarded — no
`KeyError` is raised and the per-file loop completes normally; the run's
later abort is the unrelated `UFuncTypeError` of the summation stage, not
the `KeyError` the claim predicts for every such line. -/
theorem C8_counterexample :
    searchBar exC8skipLine.data = some 93
    ∧ matchMD exC8skipLine.data = none
    ∧ exOk (processFile 0 (runInit []) exC8skipFile) = true
    ∧ mainRun [exC8skipFile] [] = .error (.exn .ufuncTypeError) := by
  refine ⟨by decide, by decide, by decide, by rfl⟩

/-- C8 amended: on a line that matches both the bar pattern, with a value
outside 1..92, and the timestamp pattern, with a parseable date and
position, the `last_pos[bar]` lookup raises an uncaught `KeyError` (the
dictionary keys are exactly 1..92), and a run over a file reaching such a
line aborts with that `KeyError`. -/
theorem C8_bar_domain_amended :
    (∀ (fd : List (String × Date × Date)) (st : FileState) (line : String) (bar : Nat)
        (md : MDGroups) (d : Date) (f2 : List Char) (p : ℚ),
        (∀ x, ¬(1 ≤ x ∧ x ≤ 92) → st.last_pos x = none) →
        searchBar line.data = some bar →
        ¬(1 ≤ bar ∧ bar ≤ 92) →
        matchMD line.data = some md →
        strptimeBDHMS md = some d →
        (splitComma (stripNL line.data))[2]? = some f2 →
        parseFloat f2 = some p →
        (st.file_start = none →
          fd.any (fun e => dateLE e.2.1 d && dateLE d e.2.2) = false) →
        step fd st line = .error (.exn .keyError))
    ∧ mainRun [exC8fullFile] [] = .error (.exn .keyError) := by
  refine ⟨?_, by rfl⟩
  intro fd st line bar md d f2 p hdom hsb hbar hmd hdt hf2 hpf hov
  simp only [step, hsb, hmd, hdt, hf2, hpf]
  cases hsd : stepDates fd d st with
  | error a =>
    exfalso
    unfold stepDates at hsd
    cases hfs : st.file_start with
    | none =>
      simp only [hfs] at hsd
      rw [hov hfs] at hsd
      simp only [Bool.false_eq_true, if_false] at hsd
      cases hsd
    | some d0 =>
      simp only [hfs] at hsd
      cases hsd
  | ok st3 =>
    obtain ⟨-, -, hDl, -, -, -, -⟩ := stepDates_ok hsd
    exact stepPos_keyError (by rw [hDl]; exact hdom bar hbar)

/-- Witness for the amended C8: the fully matched bar-93 record line makes
the per-line step raise `KeyError` from the initial state. -/
theorem C8_witness :
    step [] initFileState exC8fullLine = .error (.exn .keyError) :=
  C8_bar_domain_amended.1 [] initFileState exC8fullLine 93
    ((matchMD exC8fullLine.data).getD { month := [], day := [], hh := [], mm := [], ss := [] })
    ((strptimeBDHMS ((matchMD exC8fullLine.data).getD
        { month := [], day := [], hh := [], mm := [], ss := [] })).getD date0)
    (((splitComma (stripNL exC8fullLine.data))[2]?).getD [])
    ((parseFloat (((splitComma (stripNL exC8fullLine.data))[2]?).getD [])).getD 0)
    (fun x hx => by simp [initFileState, hx])
    (by decide) (by decide) (by decide) (by decide) (by decide) (by decide) (fun _ => rfl)

end CSU

